import Mathlib

/-!
# `tools/check_models.go`: credential loader and catalog reporter

A shallow embedding of the two functions of `tools/check_models.go`
(`loadEnvKey` and `main`) together with the parts of the Go standard library
they call (`strings.TrimSpace`, `strings.HasPrefix`, `strings.TrimPrefix`,
`bufio.Scanner` with the `ScanLines` split function, `slices.Contains`,
`log.Printf`, `log.Fatal`, `fmt.Println`, `fmt.Printf`).

Go strings are byte sequences; a byte is a natural number below 256.
Effects (standard output, the logger, client construction, the list request,
process exit) are recorded as an explicit trace of events.
-/

namespace CheckModels

/-! ## Strings -/

/-- A Go string (and a file content): a sequence of bytes. -/
abbrev GoString := List Nat

/-- UTF-8 encoding of a code point (`utf8.AppendRune` on a valid rune). -/
def encodeRune (r : Nat) : List Nat :=
  if r < 0x80 then [r]
  else if r < 0x800 then [0xC0 + r / 64, 0x80 + r % 64]
  else if r < 0x10000 then [0xE0 + r / 4096, 0x80 + r / 64 % 64, 0x80 + r % 64]
  else [0xF0 + r / 262144, 0x80 + r / 4096 % 64, 0x80 + r / 64 % 64, 0x80 + r % 64]

/-- The bytes of a string literal of the source (UTF-8, as the Go compiler
stores it). -/
def str (s : String) : GoString :=
  (s.toList.map fun c => encodeRune c.toNat).flatten

/-- The runes for which `unicode.IsSpace` is true: `\t \n \v \f \r`, space,
U+0085, U+00A0 and the other code points with the White_Space property. -/
def spaceRunes : List Nat :=
  [0x09, 0x0A, 0x0B, 0x0C, 0x0D, 0x20, 0x85, 0xA0, 0x1680,
   0x2000, 0x2001, 0x2002, 0x2003, 0x2004, 0x2005, 0x2006, 0x2007, 0x2008,
   0x2009, 0x200A, 0x2028, 0x2029, 0x202F, 0x205F, 0x3000]

/-- The byte sequences that decode to a white-space rune.  `utf8.DecodeRune`
accepts only the shortest encoding of a rune, so the rune at the front of a
string is white space exactly when one of these sequences is a prefix of the
string; `utf8.DecodeLastRune` returns a white-space rune exactly when one of
them is a suffix. -/
def spaceCodes : List (List Nat) := spaceRunes.map encodeRune

/-- Remove one code of `codes` from the front of `s`, if one is a prefix. -/
def stripCode : List (List Nat) → List Nat → Option (List Nat)
  | [], _ => none
  | e :: es, s => if e.isPrefixOf s then some (s.drop e.length) else stripCode es s

/-- Remove codes of `codes` from the front of `s` for at most `fuel` rounds. -/
def trimFuel (codes : List (List Nat)) : Nat → List Nat → List Nat
  | 0, s => s
  | fuel + 1, s =>
    match stripCode codes s with
    | some t => trimFuel codes fuel t
    | none => s

/-- Removal of codes from the front of `s` until none is a prefix: every
round removes at least one byte, so `s.length` rounds are enough. -/
def trimAll (codes : List (List Nat)) (s : List Nat) : List Nat :=
  trimFuel codes s.length s

/-- The white-space codes as they are met when a string is read from its
end. -/
def revCodes : List (List Nat) := spaceCodes.map List.reverse

/-- `strings.TrimLeftFunc(s, unicode.IsSpace)`. -/
def trimLeft (s : GoString) : GoString := trimAll spaceCodes s

/-- `strings.TrimRightFunc(s, unicode.IsSpace)`: the same scan from the end
of the string. -/
def trimRight (s : GoString) : GoString := (trimAll revCodes s.reverse).reverse

/-- `strings.TrimSpace`: leading white space is removed, then trailing white
space. -/
def TrimSpace (s : GoString) : GoString := trimRight (trimLeft s)

/-- `strings.HasPrefix`. -/
def HasPrefix (s p : GoString) : Bool := p.isPrefixOf s

/-- `strings.TrimPrefix`. -/
def TrimPrefix (s p : GoString) : GoString :=
  if HasPrefix s p then s.drop p.length else s

/-! ## `bufio.Scanner` with `bufio.ScanLines` -/

/-- `bufio.MaxScanTokenSize`. -/
def MaxScanTokenSize : Nat := 64 * 1024

/-- `dropCR` of package `bufio`: drop one terminal `\r`. -/
def dropCR (data : List Nat) : List Nat :=
  if data.getLast? = some 0x0D then data.dropLast else data

/-- The lines of a file: the byte runs between newline bytes, the newline
excluded; a last run without newline is a line when it is not empty. -/
def rawLines : List Nat → List (List Nat)
  | [] => []
  | b :: rest =>
    if b = 0x0A then [] :: rawLines rest
    else
      match rawLines rest with
      | [] => [[b]]
      | l :: ls => (b :: l) :: ls

/-- The tokens `scanner.Scan()` / `scanner.Text()` deliver, in order.  A line
of `MaxScanTokenSize` bytes or more fills the scanner's buffer before its
newline is seen: `Scan` records `ErrTooLong` and returns false, there and on
every later call. -/
def scanTokens (file : List Nat) : List GoString :=
  ((rawLines file).takeWhile fun l => decide (l.length < MaxScanTokenSize)).map dropCR

/-- Whether the loop body of `loadEnvKey` returns at this token. -/
def lineMatches (key : GoString) (text : GoString) : Bool :=
  HasPrefix (TrimSpace text) (key ++ [0x3D])

/-- What the loop body of `loadEnvKey` returns at a matching token. -/
def lineValue (key : GoString) (text : GoString) : GoString :=
  TrimPrefix (TrimSpace text) (key ++ [0x3D])

/-- The `for scanner.Scan()` loop of `loadEnvKey` and the `return ""` after
it. -/
def scanKey (key : GoString) : List GoString → GoString
  | [] => []
  | text :: rest =>
    if HasPrefix (TrimSpace text) (key ++ [0x3D]) then
      TrimPrefix (TrimSpace text) (key ++ [0x3D])
    else scanKey key rest

/-! ## Effects and the two functions of the program -/

/-- What the process does that is visible from outside, in order. -/
inductive Event where
  /-- a message handed to package `log` (written to standard error; the
  time stamp `log` puts in front and the final newline are left out) -/
  | logged (msg : GoString)
  /-- the text of one `fmt.Println` / `fmt.Printf` call on standard output -/
  | printed (text : GoString)
  /-- a call of `genai.NewClient` with this API key -/
  | newClient (apiKey : GoString)
  /-- a call of `client.Models.List` -/
  | listModels
  /-- the process ends through `os.Exit` with this status -/
  | exit (code : Nat)
  deriving DecidableEq, Repr

/-- The fields of `genai.Model` the program reads. -/
structure Model where
  Name : GoString
  SupportedActions : List GoString
  deriving DecidableEq, Repr

/-- What the environment answers: `os.Open` and the reads that follow (the
error text, or the bytes of the file; a file that opens is read to its end
without a read error), `genai.NewClient` for a given API key, and
`client.Models.List` (the error text, or `models.Items`). -/
structure World where
  fs : GoString → Except GoString (List Nat)
  newClient : GoString → Except GoString Unit
  list : Except GoString (List Model)

/-- `loadEnvKey`: the events it causes and the string it returns. -/
def loadEnvKey (w : World) (filepath key : GoString) : List Event × GoString :=
  match w.fs filepath with
  | .error err =>
    ([.logged (str "Warning: could not open " ++ filepath ++ str ": " ++ err)], [])
  | .ok file => ([], scanKey key (scanTokens file))

/-- `log.Fatal` / `log.Fatalf`: the message is logged, then `os.Exit(1)`. -/
def logFatal (msg : GoString) : List Event := [.logged msg, .exit 1]

/-- `slices.Contains`. -/
def Contains (xs : List GoString) (x : GoString) : Bool :=
  match xs with
  | [] => false
  | y :: ys => if y = x then true else Contains ys x

/-- One `for _, m := range models.Items` loop of `main`. -/
def printSection (action : GoString) : List Model → List Event
  | [] => []
  | m :: ms =>
    if Contains m.SupportedActions action then
      .printed (str "- " ++ m.Name ++ str "\n") :: printSection action ms
    else printSection action ms

/-- `fmt.Println` with one string operand: the string and a newline are
written to standard output. -/
def Println (a : GoString) : Event := .printed (a ++ str "\n")

/-- `main`: the trace of one run. -/
def main (w : World) : List Event :=
  let r := loadEnvKey w (str "../.env") (str "VITE_GOOGLE_API_KEY")
  let apiKey := r.2
  if apiKey = [] then
    r.1 ++ logFatal (str "Could not find VITE_GOOGLE_API_KEY in ../.env")
  else
    match w.newClient apiKey with
    | .error err => r.1 ++ [.newClient apiKey] ++ logFatal err
    | .ok _ =>
      match w.list with
      | .error err =>
        r.1 ++ [.newClient apiKey, .listModels]
          ++ logFatal (str "Error listing models: " ++ err)
      | .ok items =>
        r.1 ++ [.newClient apiKey, .listModels]
          ++ [Println (str "List of models that support generateContent:")]
          ++ printSection (str "generateContent") items
          ++ [Println (str "\nList of models that support embedContent:")]
          ++ printSection (str "embedContent") items

/-- The exit status of a run: that of the first `os.Exit`, and 0 when `main`
returns. -/
def exitCode : List Event → Nat
  | [] => 0
  | .exit code :: _ => code
  | _ :: rest => exitCode rest

/-- The texts written to standard output, one per print call, in order. -/
def printedTexts : List Event → List GoString
  | [] => []
  | .printed text :: rest => text :: printedTexts rest
  | _ :: rest => printedTexts rest

/-- The bytes written to standard output, in order. -/
def stdout (trace : List Event) : GoString := (printedTexts trace).flatten

/-- A string made of white space only: the UTF-8 encoding of a sequence of
white-space runes. -/
def IsSpaces (s : GoString) : Prop :=
  ∃ rs : List Nat, (∀ r ∈ rs, r ∈ spaceRunes) ∧ s = (rs.map encodeRune).flatten

/-- An environment in which every path opens, with this content; client
construction succeeds and the service lists no model. -/
def fileWorld (file : List Nat) : World :=
  ⟨fun _ => .ok file, fun _ => .ok (), .ok []⟩

/-- An environment in which no file can be opened (`os.Open` fails with this
error text). -/
def noFileWorld (err : GoString) : World :=
  ⟨fun _ => .error err, fun _ => .ok (), .ok []⟩

/-- An environment in which `../.env` (and every other path) opens with the
line `VITE_GOOGLE_API_KEY=abc123`, client construction succeeds, and the list
request has the given result. -/
def listWorld (list : Except GoString (List Model)) : World :=
  ⟨fun _ => .ok (str "VITE_GOOGLE_API_KEY=abc123\n"), fun _ => .ok (), list⟩

/-- No code is a proper prefix of another one. -/
def PrefixFree (codes : List (List Nat)) : Prop :=
  ∀ e ∈ codes, ∀ e' ∈ codes, e' <+: e → e' = e

/-- No code is empty. -/
def NonEmpty (codes : List (List Nat)) : Prop := ∀ e ∈ codes, e ≠ []

/-! ## Removing codes from the front of a string -/

theorem stripCode_some {codes : List (List Nat)} {s t : List Nat}
    (h : stripCode codes s = some t) : ∃ e ∈ codes, s = e ++ t := by
  induction codes with
  | nil => simp [stripCode] at h
  | cons e es ih =>
    simp only [stripCode] at h
    split at h
    · rename_i hp
      obtain ⟨r, hr⟩ := List.isPrefixOf_iff_prefix.mp hp
      injection h with h
      refine ⟨e, by simp, ?_⟩
      subst hr
      subst h
      simp
    · obtain ⟨e', he', hs⟩ := ih h
      exact ⟨e', by simp [he'], hs⟩

theorem stripCode_none {codes : List (List Nat)} {s : List Nat} :
    stripCode codes s = none ↔ ∀ e ∈ codes, ¬ e <+: s := by
  induction codes with
  | nil => simp [stripCode]
  | cons e es ih =>
    simp only [stripCode, List.mem_cons, forall_eq_or_imp]
    by_cases hp : e.isPrefixOf s = true
    · simp [hp, List.isPrefixOf_iff_prefix.mp hp]
    · have hp' : ¬ e <+: s := fun h => hp (List.isPrefixOf_iff_prefix.mpr h)
      simp [hp, hp', ih]

theorem stripCode_append {codes : List (List Nat)} (hpf : PrefixFree codes)
    {e : List Nat} (he : e ∈ codes) (t : List Nat) :
    stripCode codes (e ++ t) = some t := by
  cases h : stripCode codes (e ++ t) with
  | none => exact absurd (List.prefix_append e t) (stripCode_none.mp h e he)
  | some u =>
    obtain ⟨e', he', hs⟩ := stripCode_some h
    have h1 : e <+: e ++ t := List.prefix_append e t
    have h2 : e' <+: e ++ t := hs ▸ List.prefix_append e' u
    have hee : e' = e := by
      rcases Nat.le_total e'.length e.length with hl | hl
      · exact hpf e he e' he' (List.prefix_of_prefix_length_le h2 h1 hl)
      · exact (hpf e' he' e he (List.prefix_of_prefix_length_le h1 h2 hl)).symm
    subst hee
    rw [List.append_cancel_left hs]

theorem trimFuel_of_none {codes : List (List Nat)} {s : List Nat}
    (h : stripCode codes s = none) (n : Nat) : trimFuel codes n s = s := by
  cases n <;> simp [trimFuel, h]

theorem stripCode_nil {codes : List (List Nat)} (hne : NonEmpty codes) :
    stripCode codes [] = none :=
  stripCode_none.mpr fun e he hp => hne e he (List.prefix_nil.mp hp)

theorem stripCode_length {codes : List (List Nat)} (hne : NonEmpty codes)
    {s t : List Nat} (h : stripCode codes s = some t) : t.length < s.length := by
  obtain ⟨e, he, hs⟩ := stripCode_some h
  have := List.length_pos.mpr (hne e he)
  subst hs
  simp
  omega

theorem trimFuel_fuel {codes : List (List Nat)} (hne : NonEmpty codes) :
    ∀ (n m : Nat) (s : List Nat), s.length ≤ n → s.length ≤ m →
      trimFuel codes n s = trimFuel codes m s := by
  intro n
  induction n with
  | zero =>
    intro m s hn _
    have hs : s = [] := List.length_eq_zero.mp (Nat.le_zero.mp hn)
    subst hs
    rw [trimFuel_of_none (stripCode_nil hne), trimFuel_of_none (stripCode_nil hne)]
  | succ n ih =>
    intro m s hn hm
    cases m with
    | zero =>
      have hs : s = [] := List.length_eq_zero.mp (Nat.le_zero.mp hm)
      subst hs
      rw [trimFuel_of_none (stripCode_nil hne), trimFuel_of_none (stripCode_nil hne)]
    | succ m =>
      cases h : stripCode codes s with
      | none => simp [trimFuel, h]
      | some t =>
        have hl := stripCode_length hne h
        simp only [trimFuel, h]
        exact ih m t (by omega) (by omega)

theorem trimAll_of_none {codes : List (List Nat)} {s : List Nat}
    (h : stripCode codes s = none) : trimAll codes s = s :=
  trimFuel_of_none h _

theorem trimAll_step {codes : List (List Nat)} (hne : NonEmpty codes)
    {s t : List Nat} (h : stripCode codes s = some t) :
    trimAll codes s = trimAll codes t := by
  have hl := stripCode_length hne h
  unfold trimAll
  obtain ⟨k, hk⟩ : ∃ k, s.length = k + 1 := ⟨s.length - 1, by omega⟩
  rw [hk]
  simp only [trimFuel, h]
  exact trimFuel_fuel hne k t.length t (by omega) (Nat.le_refl _)

theorem trimAll_nil {codes : List (List Nat)} : trimAll codes [] = [] := rfl

theorem trimAll_flatten_append {codes : List (List Nat)} (hne : NonEmpty codes)
    (hpf : PrefixFree codes) (cs : List (List Nat)) (hcs : ∀ c ∈ cs, c ∈ codes)
    (t : List Nat) : trimAll codes (cs.flatten ++ t) = trimAll codes t := by
  induction cs with
  | nil => simp
  | cons c cs ih =>
    have hc : c ∈ codes := hcs c (by simp)
    rw [List.flatten_cons, List.append_assoc,
      trimAll_step hne (stripCode_append hpf hc _)]
    exact ih fun c' hc' => hcs c' (by simp [hc'])

theorem trimFuel_decomp {codes : List (List Nat)} :
    ∀ (n : Nat) (s : List Nat),
      ∃ cs : List (List Nat), (∀ c ∈ cs, c ∈ codes) ∧ s = cs.flatten ++ trimFuel codes n s := by
  intro n
  induction n with
  | zero => intro s; exact ⟨[], by simp, by simp [trimFuel]⟩
  | succ n ih =>
    intro s
    cases h : stripCode codes s with
    | none => exact ⟨[], by simp, by simp [trimFuel, h]⟩
    | some t =>
      obtain ⟨e, he, hs⟩ := stripCode_some h
      obtain ⟨cs, hcs, ht⟩ := ih t
      refine ⟨e :: cs, ?_, ?_⟩
      · intro c hc
        rcases List.mem_cons.mp hc with rfl | hc
        · exact he
        · exact hcs c hc
      · simp only [trimFuel, h, List.flatten_cons, List.append_assoc]
        rw [← ht]
        exact hs

theorem trimAll_decomp (codes : List (List Nat)) (s : List Nat) :
    ∃ cs : List (List Nat), (∀ c ∈ cs, c ∈ codes) ∧ s = cs.flatten ++ trimAll codes s :=
  trimFuel_decomp s.length s

theorem trimFuel_stuck {codes : List (List Nat)} (hne : NonEmpty codes) :
    ∀ (n : Nat) (s : List Nat), s.length ≤ n →
      stripCode codes (trimFuel codes n s) = none := by
  intro n
  induction n with
  | zero =>
    intro s hn
    have hs : s = [] := List.length_eq_zero.mp (Nat.le_zero.mp hn)
    subst hs
    exact stripCode_nil hne
  | succ n ih =>
    intro s hn
    cases h : stripCode codes s with
    | none => simp [trimFuel, h]
    | some t =>
      have hl := stripCode_length hne h
      simp only [trimFuel, h]
      exact ih t (by omega)

theorem trimAll_stuck {codes : List (List Nat)} (hne : NonEmpty codes) (s : List Nat) :
    stripCode codes (trimAll codes s) = none :=
  trimFuel_stuck hne s.length s (Nat.le_refl _)

theorem trimAll_eq_nil_iff {codes : List (List Nat)} (hne : NonEmpty codes)
    (hpf : PrefixFree codes) (s : List Nat) :
    trimAll codes s = [] ↔ ∃ cs : List (List Nat), (∀ c ∈ cs, c ∈ codes) ∧ s = cs.flatten := by
  constructor
  · intro h
    obtain ⟨cs, hcs, hs⟩ := trimAll_decomp codes s
    exact ⟨cs, hcs, by rw [h, List.append_nil] at hs; exact hs⟩
  · rintro ⟨cs, hcs, rfl⟩
    have := trimAll_flatten_append hne hpf cs hcs []
    rw [List.append_nil] at this
    rw [this, trimAll_nil]

/-- A string on which no code can be removed stays so when a byte that occurs
in no code, and anything after it, is appended. -/
theorem stripCode_none_sep {codes : List (List Nat)} {u : List Nat}
    (hu : stripCode codes u = none) (c : Nat) (hc : ∀ e ∈ codes, c ∉ e) (a : List Nat) :
    stripCode codes (u ++ c :: a) = none := by
  rw [stripCode_none] at hu ⊢
  intro e he hp
  rcases Nat.lt_or_ge u.length e.length with hl | hl
  · have h2 : u ++ [c] <+: u ++ c :: a := by
      rw [List.prefix_append_right_inj]
      exact ⟨a, rfl⟩
    have h3 : u ++ [c] <+: e :=
      List.prefix_of_prefix_length_le h2 hp (by simp; omega)
    exact hc e he (h3.subset (by simp))
  · exact hu e he (List.prefix_of_prefix_length_le hp (List.prefix_append u _) hl)

theorem trimAll_sep {codes : List (List Nat)} (hne : NonEmpty codes)
    (hpf : PrefixFree codes) (c : Nat) (hc : ∀ e ∈ codes, c ∉ e) (r a : List Nat) :
    trimAll codes (r ++ c :: a) = trimAll codes r ++ c :: a := by
  obtain ⟨cs, hcs, hr⟩ := trimAll_decomp codes r
  have h1 : r ++ c :: a = cs.flatten ++ (trimAll codes r ++ c :: a) := by
    rw [← List.append_assoc, ← hr]
  rw [h1, trimAll_flatten_append hne hpf cs hcs]
  exact trimAll_of_none (stripCode_none_sep (trimAll_stuck hne r) c hc a)

/-! ## The white-space codes -/

theorem spaceCodes_nonEmpty : NonEmpty spaceCodes := by
  unfold NonEmpty; decide

theorem revCodes_nonEmpty : NonEmpty revCodes := by
  unfold NonEmpty; decide

theorem spaceCodes_prefixFree : PrefixFree spaceCodes := by
  unfold PrefixFree; decide

theorem revCodes_prefixFree : PrefixFree revCodes := by
  unfold PrefixFree; decide

theorem eq_not_mem_spaceCodes : ∀ e ∈ spaceCodes, 0x3D ∉ e := by decide

theorem eq_not_mem_revCodes : ∀ e ∈ revCodes, 0x3D ∉ e := by decide

theorem cr_mem_spaceCodes : ∀ e ∈ spaceCodes, 0x0D ∈ e → e = [0x0D] := by decide

theorem trimLeft_eq (s : GoString) : trimLeft s = trimAll spaceCodes s := rfl

theorem trimRight_eq (s : GoString) :
    trimRight s = (trimAll revCodes s.reverse).reverse := rfl

/-! ## `TrimSpace` -/

theorem trimRight_sep (k r : GoString) :
    trimRight (k ++ 0x3D :: r) = k ++ 0x3D :: trimRight r := by
  rw [trimRight_eq, trimRight_eq]
  have h : (k ++ 0x3D :: r).reverse = r.reverse ++ 0x3D :: k.reverse := by simp
  rw [h, trimAll_sep revCodes_nonEmpty revCodes_prefixFree 0x3D eq_not_mem_revCodes]
  simp

theorem trimRight_initial (s : GoString) : trimRight s <+: s := by
  rw [trimRight_eq]
  obtain ⟨cs, _, hs⟩ := trimAll_decomp revCodes s.reverse
  refine ⟨cs.flatten.reverse, ?_⟩
  have h := congrArg List.reverse hs
  rw [List.reverse_reverse, List.reverse_append] at h
  exact h.symm

theorem hasPrefix_trimSpace (k l : GoString) :
    HasPrefix (TrimSpace l) (k ++ [0x3D]) = HasPrefix (trimLeft l) (k ++ [0x3D]) := by
  unfold HasPrefix TrimSpace
  rw [Bool.eq_iff_iff, List.isPrefixOf_iff_prefix, List.isPrefixOf_iff_prefix]
  constructor
  · intro h
    exact h.trans (trimRight_initial _)
  · rintro ⟨r, hr⟩
    have h : k ++ [0x3D] ++ r = k ++ 0x3D :: r := by simp
    rw [← hr, h, trimRight_sep]
    exact ⟨trimRight r, by simp⟩

/-- The value of a matching line is what follows the prefix, without its
trailing white space. -/
theorem lineValue_of_trimLeft (k l r : GoString) (h : trimLeft l = k ++ 0x3D :: r) :
    lineMatches k l = true ∧ lineValue k l = trimRight r := by
  have hT : TrimSpace l = (k ++ [0x3D]) ++ trimRight r := by
    unfold TrimSpace
    rw [h, trimRight_sep]
    simp
  have hp : HasPrefix (TrimSpace l) (k ++ [0x3D]) = true := by
    unfold HasPrefix
    rw [List.isPrefixOf_iff_prefix, hT]
    exact List.prefix_append _ _
  refine ⟨hp, ?_⟩
  unfold lineValue TrimPrefix
  rw [if_pos hp, hT, List.drop_left]

theorem stripCode_none_snoc_cr {u : List Nat} (hu : stripCode spaceCodes u = none)
    (hne : u ≠ []) : stripCode spaceCodes (u ++ [0x0D]) = none := by
  rw [stripCode_none] at hu ⊢
  intro e he hp
  rcases Nat.lt_or_ge u.length e.length with hl | hl
  · have h3 : u ++ [0x0D] <+: e :=
      List.prefix_of_prefix_length_le (List.prefix_refl _) hp (by simp; omega)
    have h4 : e = [0x0D] := cr_mem_spaceCodes e he (h3.subset (by simp))
    subst h4
    have h5 : u.length = 0 := by
      have h6 : u.length < 1 := hl
      omega
    exact hne (List.length_eq_zero.mp h5)
  · exact hu e he (List.prefix_of_prefix_length_le hp (List.prefix_append u _) hl)

theorem trimLeft_snoc_cr (l : GoString) :
    trimLeft (l ++ [0x0D]) = if trimLeft l = [] then [] else trimLeft l ++ [0x0D] := by
  obtain ⟨cs, hcs, hl⟩ := trimAll_decomp spaceCodes l
  have h1 : l ++ [0x0D] = cs.flatten ++ (trimAll spaceCodes l ++ [0x0D]) := by
    rw [← List.append_assoc, ← hl]
  rw [trimLeft_eq, trimLeft_eq, h1,
    trimAll_flatten_append spaceCodes_nonEmpty spaceCodes_prefixFree cs hcs]
  split
  · rename_i h
    rw [h]
    rfl
  · rename_i h
    exact trimAll_of_none
      (stripCode_none_snoc_cr (trimAll_stuck spaceCodes_nonEmpty l) h)

theorem trimRight_snoc_cr (u : GoString) : trimRight (u ++ [0x0D]) = trimRight u := by
  rw [trimRight_eq, trimRight_eq]
  have h : (u ++ [0x0D]).reverse = [0x0D] ++ u.reverse := by simp
  rw [h, trimAll_step revCodes_nonEmpty
    (stripCode_append revCodes_prefixFree (e := [0x0D]) (by decide) u.reverse)]

theorem TrimSpace_snoc_cr (l : GoString) : TrimSpace (l ++ [0x0D]) = TrimSpace l := by
  unfold TrimSpace
  rw [trimLeft_snoc_cr]
  split
  · rename_i h
    rw [h]
  · exact trimRight_snoc_cr _

/-- The terminal `\r` the scanner drops is white space `TrimSpace` removes
anyway. -/
theorem TrimSpace_dropCR (l : GoString) : TrimSpace (dropCR l) = TrimSpace l := by
  unfold dropCR
  split
  · rename_i h
    have h2 : l.dropLast ++ [0x0D] = l := List.dropLast_append_getLast? 0x0D (by simp [h])
    conv_rhs => rw [← h2]
    rw [TrimSpace_snoc_cr]
  · rfl

theorem isSpaces_iff_codes (s : GoString) :
    IsSpaces s ↔ ∃ cs : List (List Nat), (∀ c ∈ cs, c ∈ spaceCodes) ∧ s = cs.flatten := by
  constructor
  · rintro ⟨rs, hrs, rfl⟩
    refine ⟨rs.map encodeRune, ?_, rfl⟩
    intro c hc
    obtain ⟨r, hr, rfl⟩ := List.mem_map.mp hc
    exact List.mem_map.mpr ⟨r, hrs r hr, rfl⟩
  · rintro ⟨cs, hcs, rfl⟩
    induction cs with
    | nil => exact ⟨[], by simp, rfl⟩
    | cons c cs ih =>
      obtain ⟨rs, hrs, h⟩ := ih fun c' hc' => hcs c' (by simp [hc'])
      obtain ⟨r, hr, hc⟩ := List.mem_map.mp (hcs c (by simp))
      refine ⟨r :: rs, ?_, ?_⟩
      · intro r' hr'
        rcases List.mem_cons.mp hr' with rfl | hr'
        · exact hr
        · exact hrs r' hr'
      · simp [hc, h]

theorem isSpaces_iff_trimLeft (s : GoString) : IsSpaces s ↔ trimLeft s = [] := by
  rw [isSpaces_iff_codes, trimLeft_eq,
    trimAll_eq_nil_iff spaceCodes_nonEmpty spaceCodes_prefixFree]

theorem isSpaces_iff_revCodes (s : GoString) :
    IsSpaces s ↔
      ∃ cs : List (List Nat), (∀ c ∈ cs, c ∈ revCodes) ∧ s.reverse = cs.flatten := by
  rw [isSpaces_iff_codes]
  constructor
  · rintro ⟨cs, hcs, rfl⟩
    refine ⟨(cs.map List.reverse).reverse, ?_, List.reverse_flatten cs⟩
    intro c hc
    obtain ⟨e, he, rfl⟩ := List.mem_map.mp (List.mem_reverse.mp hc)
    exact List.mem_map.mpr ⟨e, hcs e he, rfl⟩
  · rintro ⟨cs, hcs, h⟩
    refine ⟨(cs.map List.reverse).reverse, ?_, ?_⟩
    · intro c hc
      obtain ⟨e, he, rfl⟩ := List.mem_map.mp (List.mem_reverse.mp hc)
      obtain ⟨e', he', rfl⟩ := List.mem_map.mp (hcs e he)
      rw [List.reverse_reverse]
      exact he'
    · rw [← List.reverse_flatten, ← h, List.reverse_reverse]

theorem isSpaces_iff_trimRight (s : GoString) : IsSpaces s ↔ trimRight s = [] := by
  rw [isSpaces_iff_revCodes, trimRight_eq, List.reverse_eq_nil_iff,
    trimAll_eq_nil_iff revCodes_nonEmpty revCodes_prefixFree]

theorem stripCode_none_head {codes : List (List Nat)} (hne : NonEmpty codes)
    (a : Nat) (t : List Nat) (h : ∀ e ∈ codes, e.head? ≠ some a) :
    stripCode codes (a :: t) = none := by
  rw [stripCode_none]
  intro e he hp
  cases e with
  | nil => exact hne [] he rfl
  | cons b e' =>
    obtain ⟨r, hr⟩ := hp
    have hb : b = a := by
      simp at hr
      exact hr.1
    exact h (b :: e') he (by simp [hb])

/-- Text that starts with byte `a` and ends with byte `b`, neither of which
starts (ends) a white-space code, is what `TrimSpace` leaves of the text
with white space around it. -/
theorem TrimSpace_pad (w1 w2 K : GoString) (a b : Nat) (h1 : IsSpaces w1)
    (h2 : IsSpaces w2) (ha : ∃ t, K = a :: t) (hb : ∃ t, K.reverse = b :: t)
    (hca : ∀ e ∈ spaceCodes, e.head? ≠ some a)
    (hcb : ∀ e ∈ revCodes, e.head? ≠ some b) :
    TrimSpace (w1 ++ K ++ w2) = K := by
  obtain ⟨cs1, hcs1, rfl⟩ := (isSpaces_iff_codes w1).mp h1
  obtain ⟨cs2, hcs2, hw2⟩ := (isSpaces_iff_revCodes w2).mp h2
  obtain ⟨ta, hta⟩ := ha
  obtain ⟨tb, htb⟩ := hb
  have hL : trimLeft (cs1.flatten ++ K ++ w2) = K ++ w2 := by
    rw [trimLeft_eq, List.append_assoc,
      trimAll_flatten_append spaceCodes_nonEmpty spaceCodes_prefixFree cs1 hcs1]
    apply trimAll_of_none
    rw [hta, List.cons_append]
    exact stripCode_none_head spaceCodes_nonEmpty a _ hca
  unfold TrimSpace
  rw [hL, trimRight_eq, List.reverse_append, hw2,
    trimAll_flatten_append revCodes_nonEmpty revCodes_prefixFree cs2 hcs2,
    trimAll_of_none, List.reverse_reverse]
  rw [htb]
  exact stripCode_none_head revCodes_nonEmpty b _ hcb

theorem trimRight_decomp (s : GoString) :
    ∃ ws : GoString, IsSpaces ws ∧ s = trimRight s ++ ws := by
  obtain ⟨cs, hcs, hs⟩ := trimAll_decomp revCodes s.reverse
  refine ⟨cs.flatten.reverse, ?_, ?_⟩
  · exact (isSpaces_iff_revCodes _).mpr ⟨cs, hcs, List.reverse_reverse _⟩
  · have h := congrArg List.reverse hs
    rw [List.reverse_reverse, List.reverse_append] at h
    rw [trimRight_eq]
    exact h

/-! ## The scanner and the loop of `loadEnvKey` -/

theorem rawLines_append_newline (l rest : List Nat) (h : 0x0A ∉ l) :
    rawLines (l ++ 0x0A :: rest) = l :: rawLines rest := by
  induction l with
  | nil => simp [rawLines]
  | cons b l ih =>
    have hb : b ≠ 0x0A := fun hb => h (by simp [hb])
    have hl : 0x0A ∉ l := fun hl => h (by simp [hl])
    simp [rawLines, hb, ih hl]

theorem scanKey_skip (key l : GoString) (ts : List GoString)
    (h : lineMatches key l = false) :
    scanKey key (dropCR l :: ts) = scanKey key ts := by
  unfold lineMatches at h
  simp [scanKey, TrimSpace_dropCR, h]

theorem scanKey_hit (key l : GoString) (ts : List GoString)
    (h : lineMatches key l = true) :
    scanKey key (dropCR l :: ts) = lineValue key l := by
  unfold lineMatches at h
  simp [scanKey, TrimSpace_dropCR, h, lineValue]

/-- The loop returns the value of the first matching line when that line and
the lines before it fit the scanner's buffer. -/
theorem scan_first_match (key : GoString) (pre : List (List Nat)) (m : List Nat)
    (post : List (List Nat))
    (hpre : ∀ l ∈ pre, l.length < MaxScanTokenSize ∧ lineMatches key l = false)
    (hlen : m.length < MaxScanTokenSize) (hm : lineMatches key m = true) :
    scanKey key
      (((pre ++ m :: post).takeWhile fun l => decide (l.length < MaxScanTokenSize)).map dropCR)
      = lineValue key m := by
  induction pre with
  | nil => simp [List.takeWhile, hlen, scanKey_hit, hm]
  | cons l pre ih =>
    have hl := hpre l (by simp)
    simp only [List.cons_append, List.takeWhile, hl.1, decide_True, List.map_cons]
    rw [scanKey_skip key l _ hl.2]
    exact ih fun l' hl' => hpre l' (by simp [hl'])

/-- The loop returns the empty string when no line matches. -/
theorem scan_no_match (key : GoString) (lines : List (List Nat))
    (h : ∀ l ∈ lines, lineMatches key l = false) :
    scanKey key
      ((lines.takeWhile fun l => decide (l.length < MaxScanTokenSize)).map dropCR) = [] := by
  induction lines with
  | nil => rfl
  | cons l lines ih =>
    by_cases hl : l.length < MaxScanTokenSize
    · simp only [List.takeWhile, hl, decide_True, List.map_cons]
      rw [scanKey_skip key l _ (h l (by simp))]
      exact ih fun l' hl' => h l' (by simp [hl'])
    · simp [List.takeWhile, hl, scanKey]

/-- The loop returns the empty string when a line that does not fit the
scanner's buffer comes before any matching line. -/
theorem scan_long (key : GoString) (pre : List (List Nat)) (m : List Nat)
    (post : List (List Nat)) (hpre : ∀ l ∈ pre, lineMatches key l = false)
    (hlen : MaxScanTokenSize ≤ m.length) :
    scanKey key
      (((pre ++ m :: post).takeWhile fun l => decide (l.length < MaxScanTokenSize)).map dropCR)
      = [] := by
  induction pre with
  | nil =>
    have hm : ¬ m.length < MaxScanTokenSize := by omega
    simp [List.takeWhile, hm, scanKey]
  | cons l pre ih =>
    by_cases hl : l.length < MaxScanTokenSize
    · simp only [List.cons_append, List.takeWhile, hl, decide_True, List.map_cons]
      rw [scanKey_skip key l _ (hpre l (by simp))]
      exact ih fun l' hl' => hpre l' (by simp [hl'])
    · simp [List.takeWhile, hl, scanKey]

theorem exists_first_match (key : GoString) (lines : List (List Nat))
    (h : ∃ l ∈ lines, lineMatches key l = true) :
    ∃ pre m post, lines = pre ++ m :: post ∧
      (∀ l ∈ pre, lineMatches key l = false) ∧ lineMatches key m = true := by
  induction lines with
  | nil => simp at h
  | cons l lines ih =>
    by_cases hl : lineMatches key l = true
    · exact ⟨[], l, lines, rfl, by simp, hl⟩
    · obtain ⟨x, hx, hxm⟩ := h
      have hx' : x ∈ lines := by
        rcases List.mem_cons.mp hx with rfl | hx
        · exact absurd hxm hl
        · exact hx
      obtain ⟨pre, m, post, hp, hpre, hm⟩ := ih ⟨x, hx', hxm⟩
      refine ⟨l :: pre, m, post, by simp [hp], ?_, hm⟩
      intro l' hl'
      rcases List.mem_cons.mp hl' with rfl | hl'
      · simpa using hl
      · exact hpre l' hl'

theorem loadEnvKey_ok {w : World} {path : GoString} {file : List Nat}
    (h : w.fs path = .ok file) (key : GoString) :
    loadEnvKey w path key = ([], scanKey key (scanTokens file)) := by
  simp [loadEnvKey, h]

theorem loadEnvKey_error {w : World} {path err : GoString}
    (h : w.fs path = .error err) (key : GoString) :
    loadEnvKey w path key =
      ([.logged (str "Warning: could not open " ++ path ++ str ": " ++ err)], []) := by
  simp [loadEnvKey, h]

theorem loadEnvKey_fileWorld (file : List Nat) (path key : GoString) :
    (loadEnvKey (fileWorld file) path key).2 = scanKey key (scanTokens file) := rfl

/-- A line of letters `x` is unrelated to every key. -/
theorem xs_unrelated (key : GoString) (n : Nat) :
    lineMatches key (List.replicate (n + 1) 0x78) = false := by
  have hT : TrimSpace (List.replicate (n + 1) 0x78) = List.replicate (n + 1) 0x78 := by
    have h := TrimSpace_pad [] [] (List.replicate (n + 1) 0x78) 0x78 0x78
      ⟨[], by simp, rfl⟩ ⟨[], by simp, rfl⟩
      ⟨List.replicate n 0x78, List.replicate_succ ..⟩
      ⟨List.replicate n 0x78, by rw [List.reverse_replicate, List.replicate_succ]⟩
      (by decide) (by decide)
    simpa using h
  unfold lineMatches HasPrefix
  rw [hT, Bool.eq_false_iff, Ne, List.isPrefixOf_iff_prefix]
  intro hp
  have h1 : (0x3D : Nat) ∈ List.replicate (n + 1) 0x78 := hp.subset (by simp)
  have h2 := List.eq_of_mem_replicate h1
  omega

theorem trimRight_idem (s : GoString) : trimRight (trimRight s) = trimRight s := by
  rw [trimRight_eq (trimRight s), trimRight_eq s, List.reverse_reverse,
    trimAll_of_none (trimAll_stuck revCodes_nonEmpty _)]

/-- A file that starts with a line of `n` letters `x`, `n` at least the
scanner's limit: the scanner delivers no token. -/
theorem long_line_file (n : Nat) (hn : MaxScanTokenSize ≤ n) (rest : List Nat) :
    rawLines (List.replicate n 0x78 ++ 0x0A :: rest)
        = List.replicate n 0x78 :: rawLines rest ∧
      scanTokens (List.replicate n 0x78 ++ 0x0A :: rest) = [] := by
  have h : rawLines (List.replicate n 0x78 ++ 0x0A :: rest)
      = List.replicate n 0x78 :: rawLines rest := by
    apply rawLines_append_newline
    intro hmem
    have := List.eq_of_mem_replicate hmem
    omega
  refine ⟨h, ?_⟩
  unfold scanTokens
  rw [h]
  have hlen : ¬ (List.replicate n 0x78).length < MaxScanTokenSize := by
    rw [List.length_replicate]
    omega
  simp only [List.takeWhile, hlen, decide_False, List.map_nil]

theorem maxScanTokenSize_le : MaxScanTokenSize ≤ 70000 := by decide

/-- The loop returns the empty string when the first matching line has an
empty value, whatever the length of the lines. -/
theorem scan_empty_value (key : GoString) (pre : List (List Nat)) (m : List Nat)
    (post : List (List Nat)) (hpre : ∀ l ∈ pre, lineMatches key l = false)
    (hm : lineMatches key m = true) (hv : lineValue key m = []) :
    scanKey key
      (((pre ++ m :: post).takeWhile fun l => decide (l.length < MaxScanTokenSize)).map dropCR)
      = [] := by
  induction pre with
  | nil =>
    by_cases hl : m.length < MaxScanTokenSize
    · simp [List.takeWhile, hl, scanKey_hit, hm, hv]
    · simp [List.takeWhile, hl, scanKey]
  | cons l pre ih =>
    by_cases hl : l.length < MaxScanTokenSize
    · simp only [List.cons_append, List.takeWhile, hl, decide_True, List.map_cons]
      rw [scanKey_skip key l _ (hpre l (by simp))]
      exact ih fun l' hl' => hpre l' (by simp [hl'])
    · simp [List.takeWhile, hl, scanKey]

/-- When every line that has no matching line before it is shorter than the
scanner's limit, so are the lines before the first matching one. -/
theorem bounds_before_match (key : GoString) (lines : List (List Nat))
    (hlen : ∀ pre m post, lines = pre ++ m :: post →
      (∀ l ∈ pre, lineMatches key l = false) → m.length < MaxScanTokenSize)
    (pre : List (List Nat)) (m : List Nat) (post : List (List Nat))
    (h : lines = pre ++ m :: post) (hpre : ∀ l ∈ pre, lineMatches key l = false) :
    ∀ l ∈ pre, l.length < MaxScanTokenSize ∧ lineMatches key l = false := by
  intro l hl
  obtain ⟨s, t, rfl⟩ := List.append_of_mem hl
  refine ⟨hlen s l (t ++ m :: post) (by rw [h]; simp) ?_, hpre l hl⟩
  intro x hx
  exact hpre x (by simp [hx])

/-! ## The claims on `loadEnvKey` -/

/-- C1, as stated, fails: in the file `K=abc  ` (two spaces after the value)
the line starts with `K=` and what follows the prefix is `abc  `, but
`loadEnvKey` returns `abc`: the two trailing spaces are not in the result. -/
theorem loadEnvKey_value_unmodified_counterexample :
    rawLines (str "K=abc  \n") = [str "K=abc  "] ∧
      trimLeft (str "K=abc  ") = str "K" ++ [0x3D] ++ str "abc  " ∧
      (loadEnvKey (fileWorld (str "K=abc  \n")) (str ".env") (str "K")).2 = str "abc" ∧
      str "abc" ≠ str "abc  " := by
  decide

/-- C1 (amended): when the file opens and the first line whose content
without its leading white space starts with `key=` has `r` after that prefix,
and that line and the lines before it are shorter than the scanner's limit,
`loadEnvKey` returns `r` without its trailing white space: `r` is the result
followed by white space only, and the result does not end in white space. -/
theorem loadEnvKey_first_match_value (w : World) (path key : GoString)
    (file : List Nat) (pre : List (List Nat)) (m : List Nat)
    (post : List (List Nat)) (r : GoString)
    (hopen : w.fs path = .ok file)
    (hlines : rawLines file = pre ++ m :: post)
    (hpre : ∀ l ∈ pre, l.length < MaxScanTokenSize ∧
      HasPrefix (trimLeft l) (key ++ [0x3D]) = false)
    (hlen : m.length < MaxScanTokenSize)
    (hm : trimLeft m = key ++ [0x3D] ++ r) :
    (loadEnvKey w path key).2 = trimRight r ∧
      (∃ ws : GoString, IsSpaces ws ∧ r = (loadEnvKey w path key).2 ++ ws) ∧
      trimRight (loadEnvKey w path key).2 = (loadEnvKey w path key).2 := by
  have hv := lineValue_of_trimLeft key m r (by simpa using hm)
  have hpre' : ∀ l ∈ pre, l.length < MaxScanTokenSize ∧ lineMatches key l = false := by
    intro l hl
    refine ⟨(hpre l hl).1, ?_⟩
    unfold lineMatches
    rw [hasPrefix_trimSpace]
    exact (hpre l hl).2
  have hres : (loadEnvKey w path key).2 = trimRight r := by
    rw [loadEnvKey_ok hopen]
    show scanKey key (scanTokens file) = trimRight r
    unfold scanTokens
    rw [hlines, scan_first_match key pre m post hpre' hlen hv.1, hv.2]
  rw [hres]
  exact ⟨rfl, trimRight_decomp r, trimRight_idem r⟩

/-- A file to which C1 (amended) applies. -/
theorem loadEnvKey_first_match_value_witness :
    rawLines (str "# note\n \tK=abc  \r\nK=zzz\n")
        = [str "# note"] ++ str " \tK=abc  \r" :: [str "K=zzz"] ∧
      trimLeft (str " \tK=abc  \r") = str "K" ++ [0x3D] ++ str "abc  \r" ∧
      (loadEnvKey (fileWorld (str "# note\n \tK=abc  \r\nK=zzz\n")) (str ".env")
        (str "K")).2 = trimRight (str "abc  \r") ∧
      trimRight (str "abc  \r") = str "abc" :=
  ⟨by decide, by decide,
    (loadEnvKey_first_match_value (fileWorld (str "# note\n \tK=abc  \r\nK=zzz\n"))
      (str ".env") (str "K") (str "# note\n \tK=abc  \r\nK=zzz\n")
      [str "# note"] (str " \tK=abc  \r") [str "K=zzz"] (str "abc  \r")
      rfl (by decide) (by decide) (by decide) (by decide)).1,
    by decide⟩

/-- C2, as stated, fails: an unrelated line of 70000 letters `x` before the
line `VITE_GOOGLE_API_KEY=abc123` makes `loadEnvKey` return the empty
string. -/
theorem loadEnvKey_abc123_counterexample :
    rawLines (List.replicate 70000 0x78 ++ 0x0A :: str "VITE_GOOGLE_API_KEY=abc123\n")
        = [List.replicate 70000 0x78, str "VITE_GOOGLE_API_KEY=abc123"] ∧
      HasPrefix (TrimSpace (List.replicate 70000 0x78)) (str "VITE_GOOGLE_API_KEY=")
        = false ∧
      (loadEnvKey
        (fileWorld (List.replicate 70000 0x78 ++ 0x0A :: str "VITE_GOOGLE_API_KEY=abc123\n"))
        (str "../.env") (str "VITE_GOOGLE_API_KEY")).2 = [] ∧
      ([] : GoString) ≠ str "abc123" := by
  have h := long_line_file 70000 maxScanTokenSize_le (str "VITE_GOOGLE_API_KEY=abc123\n")
  refine ⟨?_, ?_, ?_, by decide⟩
  · rw [h.1]
    have h2 : rawLines (str "VITE_GOOGLE_API_KEY=abc123\n")
        = [str "VITE_GOOGLE_API_KEY=abc123"] := by decide
    rw [h2]
  · exact xs_unrelated (str "VITE_GOOGLE_API_KEY") 69999
  · rw [loadEnvKey_fileWorld, h.2]
    rfl

/-- C2 (amended): when the file opens and has a line made of white space,
`VITE_GOOGLE_API_KEY=abc123` and white space, that line is shorter than the
scanner's limit, and every line before it is shorter than the limit and
unrelated, `loadEnvKey` returns `abc123`; nothing is asked of the lines after
it. -/
theorem loadEnvKey_abc123 (w : World) (path : GoString) (file : List Nat)
    (pre post : List (List Nat)) (w1 w2 : GoString)
    (hopen : w.fs path = .ok file)
    (hlines : rawLines file
      = pre ++ (w1 ++ str "VITE_GOOGLE_API_KEY=abc123" ++ w2) :: post)
    (hw1 : IsSpaces w1) (hw2 : IsSpaces w2)
    (hpre : ∀ l ∈ pre, l.length < MaxScanTokenSize ∧
      HasPrefix (TrimSpace l) (str "VITE_GOOGLE_API_KEY=") = false)
    (hlen : (w1 ++ str "VITE_GOOGLE_API_KEY=abc123" ++ w2).length < MaxScanTokenSize) :
    (loadEnvKey w path (str "VITE_GOOGLE_API_KEY")).2 = str "abc123" := by
  have hT : TrimSpace (w1 ++ str "VITE_GOOGLE_API_KEY=abc123" ++ w2)
      = str "VITE_GOOGLE_API_KEY=abc123" :=
    TrimSpace_pad w1 w2 _ 0x56 0x33 hw1 hw2
      ⟨(str "VITE_GOOGLE_API_KEY=abc123").tail, by decide⟩
      ⟨(str "VITE_GOOGLE_API_KEY=abc123").reverse.tail, by decide⟩
      (by decide) (by decide)
  have hm : lineMatches (str "VITE_GOOGLE_API_KEY")
      (w1 ++ str "VITE_GOOGLE_API_KEY=abc123" ++ w2) = true := by
    unfold lineMatches
    rw [hT]
    decide
  have hval : lineValue (str "VITE_GOOGLE_API_KEY")
      (w1 ++ str "VITE_GOOGLE_API_KEY=abc123" ++ w2) = str "abc123" := by
    unfold lineValue
    rw [hT]
    decide
  have hpre' : ∀ l ∈ pre, l.length < MaxScanTokenSize ∧
      lineMatches (str "VITE_GOOGLE_API_KEY") l = false := by
    intro l hl
    have he : str "VITE_GOOGLE_API_KEY" ++ [0x3D] = str "VITE_GOOGLE_API_KEY=" := by decide
    refine ⟨(hpre l hl).1, ?_⟩
    unfold lineMatches
    rw [he]
    exact (hpre l hl).2
  rw [loadEnvKey_ok hopen]
  show scanKey _ (scanTokens file) = str "abc123"
  unfold scanTokens
  rw [hlines, scan_first_match _ pre _ post hpre' hlen hm, hval]

/-- A file to which C2 (amended) applies: comment lines around the key line,
which has a tab and a space in front and a space and `\r` behind. -/
theorem loadEnvKey_abc123_witness :
    (loadEnvKey (fileWorld (str "# a\n\t VITE_GOOGLE_API_KEY=abc123 \r\n# b\n"))
      (str "../.env") (str "VITE_GOOGLE_API_KEY")).2 = str "abc123" :=
  loadEnvKey_abc123 (fileWorld (str "# a\n\t VITE_GOOGLE_API_KEY=abc123 \r\n# b\n"))
    (str "../.env") (str "# a\n\t VITE_GOOGLE_API_KEY=abc123 \r\n# b\n")
    [str "# a"] [str "# b"] (str "\t ") (str " \r")
    rfl (by decide) ⟨[0x09, 0x20], by decide, by decide⟩ ⟨[0x20, 0x0D], by decide, by decide⟩
    (by decide) (by decide)

/-- C3: `loadEnvKey` returns the empty string when the file cannot be
opened, and when it opens but no line's white-space-trimmed content starts
with `key=`. -/
theorem loadEnvKey_no_match (w : World) (path key : GoString) :
    (∀ err, w.fs path = .error err → (loadEnvKey w path key).2 = []) ∧
      (∀ file, w.fs path = .ok file →
        (∀ l ∈ rawLines file, HasPrefix (TrimSpace l) (key ++ [0x3D]) = false) →
        (loadEnvKey w path key).2 = []) := by
  constructor
  · intro err h
    rw [loadEnvKey_error h]
  · intro file h hno
    rw [loadEnvKey_ok h]
    exact scan_no_match key (rawLines file) hno

/-- Two runs to which C3 applies: no file, and a file whose lines do not
start with the key. -/
theorem loadEnvKey_no_match_witness :
    (loadEnvKey (noFileWorld (str "no such file or directory")) (str "../.env")
        (str "VITE_GOOGLE_API_KEY")).2 = [] ∧
      (loadEnvKey (fileWorld (str "A=1\n# VITE_GOOGLE_API_KEY=zz\n")) (str "../.env")
        (str "VITE_GOOGLE_API_KEY")).2 = [] :=
  ⟨(loadEnvKey_no_match (noFileWorld (str "no such file or directory")) (str "../.env")
      (str "VITE_GOOGLE_API_KEY")).1 (str "no such file or directory") rfl,
    (loadEnvKey_no_match (fileWorld (str "A=1\n# VITE_GOOGLE_API_KEY=zz\n")) (str "../.env")
      (str "VITE_GOOGLE_API_KEY")).2 (str "A=1\n# VITE_GOOGLE_API_KEY=zz\n") rfl
      (by decide)⟩

/-- C4, as stated, fails: in a file with a line of 70000 letters `x` and
then the lines `K=first` and `K=second`, the first matching line has the
value `first`, and `loadEnvKey` returns the empty string. -/
theorem loadEnvKey_first_wins_counterexample :
    rawLines (List.replicate 70000 0x78 ++ 0x0A :: str "K=first\nK=second\n")
        = [List.replicate 70000 0x78, str "K=first", str "K=second"] ∧
      lineMatches (str "K") (List.replicate 70000 0x78) = false ∧
      lineMatches (str "K") (str "K=first") = true ∧
      lineMatches (str "K") (str "K=second") = true ∧
      lineValue (str "K") (str "K=first") = str "first" ∧
      (loadEnvKey (fileWorld (List.replicate 70000 0x78 ++ 0x0A :: str "K=first\nK=second\n"))
        (str ".env") (str "K")).2 = [] ∧
      ([] : GoString) ≠ str "first" := by
  have h := long_line_file 70000 maxScanTokenSize_le (str "K=first\nK=second\n")
  refine ⟨?_, xs_unrelated (str "K") 69999, by decide, by decide, by decide, ?_, by decide⟩
  · rw [h.1]
    have h2 : rawLines (str "K=first\nK=second\n") = [str "K=first", str "K=second"] := by
      decide
    rw [h2]
  · rw [loadEnvKey_fileWorld, h.2]
    rfl

/-- C4 (amended): when the first matching line and the lines before it are
shorter than the scanner's limit, `loadEnvKey` returns the value of the first
matching line, and a file that differs only in the lines after it gives the
same result. -/
theorem loadEnvKey_first_wins (w w' : World) (path key : GoString)
    (file file' : List Nat) (pre : List (List Nat)) (m : List Nat)
    (post post' : List (List Nat))
    (hopen : w.fs path = .ok file) (hopen' : w'.fs path = .ok file')
    (hlines : rawLines file = pre ++ m :: post)
    (hlines' : rawLines file' = pre ++ m :: post')
    (hpre : ∀ l ∈ pre, l.length < MaxScanTokenSize ∧ lineMatches key l = false)
    (hlen : m.length < MaxScanTokenSize) (hm : lineMatches key m = true) :
    (loadEnvKey w path key).2 = lineValue key m ∧
      (loadEnvKey w' path key).2 = (loadEnvKey w path key).2 := by
  have h1 : (loadEnvKey w path key).2 = lineValue key m := by
    rw [loadEnvKey_ok hopen]
    show scanKey key (scanTokens file) = lineValue key m
    unfold scanTokens
    rw [hlines, scan_first_match key pre m post hpre hlen hm]
  have h2 : (loadEnvKey w' path key).2 = lineValue key m := by
    rw [loadEnvKey_ok hopen']
    show scanKey key (scanTokens file') = lineValue key m
    unfold scanTokens
    rw [hlines', scan_first_match key pre m post' hpre hlen hm]
  exact ⟨h1, by rw [h1, h2]⟩

/-- Two files to which C4 (amended) applies: both have `K=first` as first
matching line; one has the later line `K=second`, the other `K=third` twice. -/
theorem loadEnvKey_first_wins_witness :
    (loadEnvKey (fileWorld (str "# c\nK=first\nK=second\n")) (str ".env") (str "K")).2
        = lineValue (str "K") (str "K=first") ∧
      (loadEnvKey (fileWorld (str "# c\nK=first\nK=third\nK=third\n")) (str ".env")
        (str "K")).2
        = (loadEnvKey (fileWorld (str "# c\nK=first\nK=second\n")) (str ".env")
          (str "K")).2 :=
  loadEnvKey_first_wins (fileWorld (str "# c\nK=first\nK=second\n"))
    (fileWorld (str "# c\nK=first\nK=third\nK=third\n")) (str ".env") (str "K")
    (str "# c\nK=first\nK=second\n") (str "# c\nK=first\nK=third\nK=third\n")
    [str "# c"] (str "K=first") [str "K=second"] [str "K=third", str "K=third"]
    rfl rfl (by decide) (by decide) (by decide) (by decide) (by decide)

/-- C10: the file made of a line of 70000 letters `x` and the line
`VITE_GOOGLE_API_KEY=abc123` has that key line and otherwise one unrelated
line; the first line is not shorter than `bufio.MaxScanTokenSize`, the
scanner delivers no token, and `loadEnvKey` returns the empty string.
Without the long line it returns `abc123`. -/
theorem loadEnvKey_long_line_hides_key :
    rawLines (List.replicate 70000 0x78 ++ str "\nVITE_GOOGLE_API_KEY=abc123\n")
        = [List.replicate 70000 0x78, str "VITE_GOOGLE_API_KEY=abc123"] ∧
      lineMatches (str "VITE_GOOGLE_API_KEY") (List.replicate 70000 0x78) = false ∧
      MaxScanTokenSize = 65536 ∧
      (List.replicate 70000 0x78).length = 70000 ∧
      scanTokens (List.replicate 70000 0x78 ++ str "\nVITE_GOOGLE_API_KEY=abc123\n") = [] ∧
      (loadEnvKey
        (fileWorld (List.replicate 70000 0x78 ++ str "\nVITE_GOOGLE_API_KEY=abc123\n"))
        (str "../.env") (str "VITE_GOOGLE_API_KEY")).2 = [] ∧
      (loadEnvKey (fileWorld (str "VITE_GOOGLE_API_KEY=abc123\n"))
        (str "../.env") (str "VITE_GOOGLE_API_KEY")).2 = str "abc123" := by
  have he : str "\nVITE_GOOGLE_API_KEY=abc123\n"
      = 0x0A :: str "VITE_GOOGLE_API_KEY=abc123\n" := by decide
  have h := long_line_file 70000 maxScanTokenSize_le (str "VITE_GOOGLE_API_KEY=abc123\n")
  rw [he]
  refine ⟨?_, xs_unrelated (str "VITE_GOOGLE_API_KEY") 69999, by decide,
    List.length_replicate _ _, h.2, ?_, by decide⟩
  · rw [h.1]
    have h2 : rawLines (str "VITE_GOOGLE_API_KEY=abc123\n")
        = [str "VITE_GOOGLE_API_KEY=abc123"] := by decide
    rw [h2]
  · rw [loadEnvKey_fileWorld, h.2]
    rfl

/-! ## The trace of `main` -/

theorem contains_iff (xs : List GoString) (x : GoString) :
    Contains xs x = true ↔ x ∈ xs := by
  induction xs with
  | nil => simp [Contains]
  | cons y ys ih =>
    unfold Contains
    by_cases h : y = x
    · simp [h]
    · have h' : ¬ x = y := fun e => h e.symm
      simp [h, h', ih]

theorem printedTexts_append (a b : List Event) :
    printedTexts (a ++ b) = printedTexts a ++ printedTexts b := by
  induction a with
  | nil => rfl
  | cons e a ih => cases e <;> simp [printedTexts, ih]

theorem printedTexts_printSection (action : GoString) (items : List Model) :
    printedTexts (printSection action items)
      = (items.filter fun m => decide (action ∈ m.SupportedActions)).map
          fun m => str "- " ++ m.Name ++ str "\n" := by
  induction items with
  | nil => rfl
  | cons m ms ih =>
    unfold printSection
    by_cases h : action ∈ m.SupportedActions
    · simp [(contains_iff _ _).mpr h, h, printedTexts, ih]
    · have hc : Contains m.SupportedActions action = false := by
        rw [Bool.eq_false_iff, Ne, contains_iff]
        exact h
      simp [hc, h, ih]

theorem exitCode_printSection_append (action : GoString) (items : List Model)
    (rest : List Event) :
    exitCode (printSection action items ++ rest) = exitCode rest := by
  induction items with
  | nil => rfl
  | cons m ms ih =>
    unfold printSection
    split
    · simpa [exitCode] using ih
    · exact ih

/-- The run of `main` when the credential is empty. -/
theorem main_no_key (w : World)
    (h : (loadEnvKey w (str "../.env") (str "VITE_GOOGLE_API_KEY")).2 = []) :
    main w = (loadEnvKey w (str "../.env") (str "VITE_GOOGLE_API_KEY")).1
      ++ logFatal (str "Could not find VITE_GOOGLE_API_KEY in ../.env") := by
  simp [main, h]

/-- With a non-empty credential the file was opened, and `loadEnvKey` logged
nothing. -/
theorem loadEnvKey_events_of_key (w : World) (path key : GoString)
    (h : (loadEnvKey w path key).2 ≠ []) : (loadEnvKey w path key).1 = [] := by
  unfold loadEnvKey at h ⊢
  split
  · rename_i err he
    simp [he] at h
  · rfl

/-- The run of `main` when client construction fails. -/
theorem main_client_error (w : World) (err : GoString)
    (hkey : (loadEnvKey w (str "../.env") (str "VITE_GOOGLE_API_KEY")).2 ≠ [])
    (hc : w.newClient (loadEnvKey w (str "../.env") (str "VITE_GOOGLE_API_KEY")).2
      = .error err) :
    main w = [.newClient (loadEnvKey w (str "../.env") (str "VITE_GOOGLE_API_KEY")).2]
      ++ logFatal err := by
  simp [main, hkey, hc, loadEnvKey_events_of_key w _ _ hkey]

/-- The run of `main` when the list request fails. -/
theorem main_list_error (w : World) (u : Unit) (err : GoString)
    (hkey : (loadEnvKey w (str "../.env") (str "VITE_GOOGLE_API_KEY")).2 ≠ [])
    (hc : w.newClient (loadEnvKey w (str "../.env") (str "VITE_GOOGLE_API_KEY")).2
      = .ok u)
    (hl : w.list = .error err) :
    main w = [.newClient (loadEnvKey w (str "../.env") (str "VITE_GOOGLE_API_KEY")).2,
        .listModels] ++ logFatal (str "Error listing models: " ++ err) := by
  simp [main, hkey, hc, hl, loadEnvKey_events_of_key w _ _ hkey]

/-- The run of `main` when every step succeeds. -/
theorem main_ok (w : World) (u : Unit) (items : List Model)
    (hkey : (loadEnvKey w (str "../.env") (str "VITE_GOOGLE_API_KEY")).2 ≠ [])
    (hc : w.newClient (loadEnvKey w (str "../.env") (str "VITE_GOOGLE_API_KEY")).2
      = .ok u)
    (hl : w.list = .ok items) :
    main w = [.newClient (loadEnvKey w (str "../.env") (str "VITE_GOOGLE_API_KEY")).2,
        .listModels, Println (str "List of models that support generateContent:")]
      ++ printSection (str "generateContent") items
      ++ [Println (str "\nList of models that support embedContent:")]
      ++ printSection (str "embedContent") items := by
  simp [main, hkey, hc, hl, loadEnvKey_events_of_key w _ _ hkey]

theorem exitCode_logFatal (pre : List Event) (msg : GoString)
    (h : exitCode pre = 0) (hpre : ∀ c, Event.exit c ∉ pre) :
    exitCode (pre ++ logFatal msg) = 1 := by
  induction pre with
  | nil => rfl
  | cons e pre ih =>
    cases e with
    | exit c => exact absurd (List.mem_cons_self _ _) (hpre c)
    | logged m =>
      exact ih h fun c hc => hpre c (List.mem_cons_of_mem _ hc)
    | printed t =>
      exact ih h fun c hc => hpre c (List.mem_cons_of_mem _ hc)
    | newClient k =>
      exact ih h fun c hc => hpre c (List.mem_cons_of_mem _ hc)
    | listModels =>
      exact ih h fun c hc => hpre c (List.mem_cons_of_mem _ hc)

theorem loadEnvKey_no_exit (w : World) (path key : GoString) :
    exitCode (loadEnvKey w path key).1 = 0 ∧ ∀ c, Event.exit c ∉ (loadEnvKey w path key).1 := by
  unfold loadEnvKey
  split <;> simp [exitCode]

theorem loadEnvKey_events (w : World) (path key : GoString) :
    (loadEnvKey w path key).1 = [] ∨ ∃ msg, (loadEnvKey w path key).1 = [.logged msg] := by
  unfold loadEnvKey
  split
  · exact Or.inr ⟨_, rfl⟩
  · exact Or.inl rfl

theorem exitCode_main_ok (k : GoString) (items : List Model) :
    exitCode ([.newClient k, .listModels, Println (str "List of models that support generateContent:")]
      ++ printSection (str "generateContent") items
      ++ [Println (str "\nList of models that support embedContent:")]
      ++ printSection (str "embedContent") items) = 0 := by
  have e : [Event.newClient k, Event.listModels, Println (str "List of models that support generateContent:")]
        ++ printSection (str "generateContent") items
        ++ [Println (str "\nList of models that support embedContent:")]
        ++ printSection (str "embedContent") items
      = [Event.newClient k, Event.listModels, Println (str "List of models that support generateContent:")]
        ++ (printSection (str "generateContent") items
          ++ (Println (str "\nList of models that support embedContent:") :: (printSection (str "embedContent") items ++ []))) := by
    simp
  rw [e]
  show exitCode (printSection (str "generateContent") items
    ++ (Println (str "\nList of models that support embedContent:") :: (printSection (str "embedContent") items ++ []))) = 0
  rw [exitCode_printSection_append]
  show exitCode (printSection (str "embedContent") items ++ []) = 0
  rw [exitCode_printSection_append]
  rfl

/-! ## The claims on `main` -/

/-- C5, as stated, fails: for the empty model list standard output is not
the two header lines alone.  It has three lines, the second of them empty:
`main` prints the `embedContent` header with a newline in front. -/
theorem main_sections_counterexample :
    stdout (main (listWorld (.ok [])))
        = str "List of models that support generateContent:\n\nList of models that support embedContent:\n" ∧
      rawLines (stdout (main (listWorld (.ok []))))
        = [str "List of models that support generateContent:", [],
            str "List of models that support embedContent:"] ∧
      rawLines (stdout (main (listWorld (.ok []))))
        ≠ [str "List of models that support generateContent:",
            str "List of models that support embedContent:"] := by
  decide

/-- C5 (amended): after a successful list request, standard output is the
line `List of models that support generateContent:`, one line `- <name>` for
each model whose `SupportedActions` contains `generateContent`, an empty
line, the line `List of models that support embedContent:`, and one line
`- <name>` for each model whose `SupportedActions` contains `embedContent`,
each section in the order of the list, every text written by one print call.
For models `a {generateContent}`, `b {embedContent}`,
`c {generateContent, embedContent}` the sections are `a, c` and `b, c`; for
the empty list the output is the first header line, an empty line and the
second header line. -/
theorem main_prints_sections (w : World) (items : List Model)
    (hkey : (loadEnvKey w (str "../.env") (str "VITE_GOOGLE_API_KEY")).2 ≠ [])
    (hc : w.newClient (loadEnvKey w (str "../.env") (str "VITE_GOOGLE_API_KEY")).2
      = .ok ())
    (hl : w.list = .ok items) :
    printedTexts (main w)
        = [str "List of models that support generateContent:\n"]
          ++ ((items.filter fun m => decide (str "generateContent" ∈ m.SupportedActions)).map
              fun m => str "- " ++ m.Name ++ str "\n")
          ++ [str "\nList of models that support embedContent:\n"]
          ++ ((items.filter fun m => decide (str "embedContent" ∈ m.SupportedActions)).map
              fun m => str "- " ++ m.Name ++ str "\n") ∧
      stdout (main w)
        = str "List of models that support generateContent:\n"
          ++ ((items.filter fun m => decide (str "generateContent" ∈ m.SupportedActions)).map
              fun m => str "- " ++ m.Name ++ str "\n").flatten
          ++ str "\nList of models that support embedContent:\n"
          ++ ((items.filter fun m => decide (str "embedContent" ∈ m.SupportedActions)).map
              fun m => str "- " ++ m.Name ++ str "\n").flatten ∧
      (∀ a b c : GoString,
        items = [⟨a, [str "generateContent"]⟩, ⟨b, [str "embedContent"]⟩,
          ⟨c, [str "generateContent", str "embedContent"]⟩] →
        printedTexts (main w)
          = [str "List of models that support generateContent:\n",
              str "- " ++ a ++ str "\n", str "- " ++ c ++ str "\n",
              str "\nList of models that support embedContent:\n",
              str "- " ++ b ++ str "\n", str "- " ++ c ++ str "\n"]) ∧
      (items = [] →
        printedTexts (main w)
            = [str "List of models that support generateContent:\n",
                str "\nList of models that support embedContent:\n"] ∧
          rawLines (stdout (main w))
            = [str "List of models that support generateContent:", [],
                str "List of models that support embedContent:"]) := by
  have hmain : printedTexts (main w)
      = [str "List of models that support generateContent:\n"]
        ++ ((items.filter fun m => decide (str "generateContent" ∈ m.SupportedActions)).map
            fun m => str "- " ++ m.Name ++ str "\n")
        ++ [str "\nList of models that support embedContent:\n"]
        ++ ((items.filter fun m => decide (str "embedContent" ∈ m.SupportedActions)).map
            fun m => str "- " ++ m.Name ++ str "\n") := by
    rw [main_ok w () items hkey hc hl]
    simp only [printedTexts_append, printedTexts_printSection]
    rfl
  have hne : str "generateContent" ≠ str "embedContent" := by decide
  refine ⟨hmain, ?_, ?_, ?_⟩
  · unfold stdout
    rw [hmain]
    simp only [List.flatten_append, List.flatten_cons, List.flatten_nil, List.append_nil]
  · intro a b c hi
    rw [hmain, hi]
    simp [hne, hne.symm]
  · intro hi
    have hp : printedTexts (main w)
        = [str "List of models that support generateContent:\n",
            str "\nList of models that support embedContent:\n"] := by
      rw [hmain, hi]
      rfl
    refine ⟨hp, ?_⟩
    unfold stdout
    rw [hp]
    decide

/-- A run to which C5 (amended) applies: the credential is `abc123` and the
service lists the models `A`, `B`, `C` of the example. -/
theorem main_prints_sections_witness :
    printedTexts (main (listWorld (.ok [⟨str "A", [str "generateContent"]⟩,
        ⟨str "B", [str "embedContent"]⟩,
        ⟨str "C", [str "generateContent", str "embedContent"]⟩])))
        = [str "List of models that support generateContent:\n", str "- A\n", str "- C\n",
            str "\nList of models that support embedContent:\n", str "- B\n", str "- C\n"] ∧
      rawLines (stdout (main (listWorld (.ok [⟨str "A", [str "generateContent"]⟩,
        ⟨str "B", [str "embedContent"]⟩,
        ⟨str "C", [str "generateContent", str "embedContent"]⟩]))))
        = [str "List of models that support generateContent:", str "- A", str "- C", [],
            str "List of models that support embedContent:", str "- B", str "- C"] :=
  ⟨(main_prints_sections
      (listWorld (.ok [⟨str "A", [str "generateContent"]⟩,
          ⟨str "B", [str "embedContent"]⟩,
          ⟨str "C", [str "generateContent", str "embedContent"]⟩]))
      [⟨str "A", [str "generateContent"]⟩, ⟨str "B", [str "embedContent"]⟩,
        ⟨str "C", [str "generateContent", str "embedContent"]⟩]
      (by decide) rfl rfl).2.2.1 (str "A") (str "B") (str "C") rfl,
    by decide⟩

/-- C6: when the list request fails, the run ends with status 1 and nothing
is written to standard output; when the request was issued, the run is client
construction, the request, the message `Error listing models: <error>` on
the logger, and exit. -/
theorem main_list_failure (w : World) (err : GoString) (hl : w.list = .error err) :
    exitCode (main w) = 1 ∧ printedTexts (main w) = [] ∧
      (Event.listModels ∈ main w →
        main w = [.newClient (loadEnvKey w (str "../.env") (str "VITE_GOOGLE_API_KEY")).2,
          .listModels, .logged (str "Error listing models: " ++ err), .exit 1]) := by
  by_cases hkey : (loadEnvKey w (str "../.env") (str "VITE_GOOGLE_API_KEY")).2 = []
  · rw [main_no_key w hkey]
    rcases loadEnvKey_events w (str "../.env") (str "VITE_GOOGLE_API_KEY") with h | ⟨m, h⟩ <;>
      rw [h] <;> simp [logFatal, exitCode, printedTexts]
  · cases hc : w.newClient (loadEnvKey w (str "../.env") (str "VITE_GOOGLE_API_KEY")).2 with
    | error e =>
      rw [main_client_error w e hkey hc]
      simp [logFatal, exitCode, printedTexts]
    | ok u =>
      rw [main_list_error w u err hkey hc hl]
      simp [logFatal, exitCode, printedTexts]

/-- A run to which C6 applies: the credential is `abc123`, the client is
built, and the list request fails with `quota exceeded`. -/
theorem main_list_failure_witness :
    exitCode (main (listWorld (.error (str "quota exceeded")))) = 1 ∧
      printedTexts (main (listWorld (.error (str "quota exceeded")))) = [] ∧
      main (listWorld (.error (str "quota exceeded")))
        = [.newClient (str "abc123"), .listModels,
            .logged (str "Error listing models: quota exceeded"), .exit 1] :=
  ⟨(main_list_failure (listWorld (.error (str "quota exceeded"))) (str "quota exceeded")
      rfl).1,
    (main_list_failure (listWorld (.error (str "quota exceeded"))) (str "quota exceeded")
      rfl).2.1,
    by decide⟩

/-- C7: the exit status of `main` is 0 exactly when the loaded credential is
not empty, client construction succeeds and the list request succeeds; in
every other run it is 1. -/
theorem main_exit_code (w : World) :
    (exitCode (main w) = 0 ↔
        (loadEnvKey w (str "../.env") (str "VITE_GOOGLE_API_KEY")).2 ≠ [] ∧
        (∃ u, w.newClient (loadEnvKey w (str "../.env") (str "VITE_GOOGLE_API_KEY")).2
          = .ok u) ∧
        (∃ items, w.list = .ok items)) ∧
      (exitCode (main w) = 0 ∨ exitCode (main w) = 1) := by
  by_cases hkey : (loadEnvKey w (str "../.env") (str "VITE_GOOGLE_API_KEY")).2 = []
  · have h1 : exitCode (main w) = 1 := by
      rw [main_no_key w hkey]
      exact exitCode_logFatal _ _ (loadEnvKey_no_exit w _ _).1 (loadEnvKey_no_exit w _ _).2
    refine ⟨⟨fun h => ?_, fun h => absurd hkey h.1⟩, Or.inr h1⟩
    rw [h1] at h
    exact absurd h (by decide)
  · cases hc : w.newClient (loadEnvKey w (str "../.env") (str "VITE_GOOGLE_API_KEY")).2 with
    | error e =>
      have h1 : exitCode (main w) = 1 := by
        rw [main_client_error w e hkey hc]
        rfl
      refine ⟨⟨fun h => ?_, fun h => ?_⟩, Or.inr h1⟩
      · rw [h1] at h
        exact absurd h (by decide)
      · obtain ⟨_, ⟨u, hu⟩, _⟩ := h
        exact absurd hu (by simp)
    | ok u =>
      cases hl : w.list with
      | error e =>
        have h1 : exitCode (main w) = 1 := by
          rw [main_list_error w u e hkey hc hl]
          rfl
        refine ⟨⟨fun h => ?_, fun h => ?_⟩, Or.inr h1⟩
        · rw [h1] at h
          exact absurd h (by decide)
        · obtain ⟨_, _, ⟨items, hi⟩⟩ := h
          exact absurd hi (by simp)
      | ok items =>
        have h0 : exitCode (main w) = 0 := by
          rw [main_ok w u items hkey hc hl]
          exact exitCode_main_ok _ items
        exact ⟨⟨fun _ => ⟨hkey, ⟨u, rfl⟩, ⟨items, rfl⟩⟩, fun _ => h0⟩, Or.inl h0⟩

/-- C8: when `../.env` cannot be opened, `loadEnvKey` logs one warning,
returns the empty string and does not exit; `main` then logs
`Could not find VITE_GOOGLE_API_KEY in ../.env` and exits with status 1,
without a call of `genai.NewClient` or of `Models.List`. -/
theorem main_missing_file (w : World) (err : GoString)
    (hopen : w.fs (str "../.env") = .error err) :
    loadEnvKey w (str "../.env") (str "VITE_GOOGLE_API_KEY")
        = ([.logged (str "Warning: could not open " ++ str "../.env" ++ str ": " ++ err)],
            []) ∧
      main w
        = [.logged (str "Warning: could not open " ++ str "../.env" ++ str ": " ++ err),
            .logged (str "Could not find VITE_GOOGLE_API_KEY in ../.env"), .exit 1] ∧
      exitCode (main w) = 1 ∧
      (∀ k, Event.newClient k ∉ main w) ∧ Event.listModels ∉ main w := by
  have h1 := loadEnvKey_error hopen (str "VITE_GOOGLE_API_KEY")
  have h2 : main w
      = [.logged (str "Warning: could not open " ++ str "../.env" ++ str ": " ++ err),
          .logged (str "Could not find VITE_GOOGLE_API_KEY in ../.env"), .exit 1] := by
    rw [main_no_key w (by rw [h1]), h1]
    rfl
  refine ⟨h1, h2, ?_, ?_, ?_⟩ <;> rw [h2] <;> simp [exitCode]

/-- A run to which C8 applies: `os.Open` fails with
`open ../.env: no such file or directory`. -/
theorem main_missing_file_witness :
    main (noFileWorld (str "open ../.env: no such file or directory"))
      = [.logged
          (str "Warning: could not open ../.env: open ../.env: no such file or directory"),
          .logged (str "Could not find VITE_GOOGLE_API_KEY in ../.env"), .exit 1] :=
  (main_missing_file (noFileWorld (str "open ../.env: no such file or directory"))
    (str "open ../.env: no such file or directory") rfl).2.1.trans (by decide)

/-- C9, as stated, fails: in a file with a line of 70000 letters `x` and
then the line `K=v`, a line matches the key prefix, the first matching line
has `v` after `K=`, which is not white space, and `loadEnvKey` returns the
empty string all the same. -/
theorem loadEnvKey_empty_iff_counterexample :
    rawLines (List.replicate 70000 0x78 ++ 0x0A :: str "K=v\n")
        = [List.replicate 70000 0x78, str "K=v"] ∧
      lineMatches (str "K") (List.replicate 70000 0x78) = false ∧
      lineMatches (str "K") (str "K=v") = true ∧
      trimLeft (str "K=v") = str "K" ++ [0x3D] ++ str "v" ∧
      ¬ IsSpaces (str "v") ∧
      (loadEnvKey (fileWorld (List.replicate 70000 0x78 ++ 0x0A :: str "K=v\n"))
        (str ".env") (str "K")).2 = [] := by
  have h := long_line_file 70000 maxScanTokenSize_le (str "K=v\n")
  refine ⟨?_, xs_unrelated (str "K") 69999, by decide, by decide, ?_, ?_⟩
  · rw [h.1]
    have h2 : rawLines (str "K=v\n") = [str "K=v"] := by decide
    rw [h2]
  · rw [isSpaces_iff_trimLeft]
    decide
  · rw [loadEnvKey_fileWorld, h.2]
    rfl

/-- C9 (amended): for a file that opens and in which every line with no
matching line before it is shorter than the scanner's limit, `loadEnvKey`
returns the empty string exactly when no line matches the key prefix or the
first matching line has white space only after `key=`.  Whatever the length of
the lines: when the first matching line of `../.env` has white space only
after `VITE_GOOGLE_API_KEY=`, `main` logs
`Could not find VITE_GOOGLE_API_KEY in ../.env` and exits, whatever the later
lines are, and it does the same when no line matches. -/
theorem loadEnvKey_empty_iff :
    (∀ (w : World) (path key : GoString) (file : List Nat),
      w.fs path = .ok file →
      (∀ pre m post, rawLines file = pre ++ m :: post →
        (∀ l ∈ pre, lineMatches key l = false) → m.length < MaxScanTokenSize) →
      ((loadEnvKey w path key).2 = [] ↔
        (∀ l ∈ rawLines file, lineMatches key l = false) ∨
        ∃ pre m post r, rawLines file = pre ++ m :: post ∧
          (∀ l ∈ pre, lineMatches key l = false) ∧
          trimLeft m = key ++ [0x3D] ++ r ∧ IsSpaces r)) ∧
    (∀ (w : World) (file : List Nat) (pre : List (List Nat)) (m : List Nat)
        (post : List (List Nat)) (r : GoString),
      w.fs (str "../.env") = .ok file →
      rawLines file = pre ++ m :: post →
      (∀ l ∈ pre, lineMatches (str "VITE_GOOGLE_API_KEY") l = false) →
      trimLeft m = str "VITE_GOOGLE_API_KEY" ++ [0x3D] ++ r → IsSpaces r →
      main w = logFatal (str "Could not find VITE_GOOGLE_API_KEY in ../.env")) ∧
    (∀ (w : World) (file : List Nat),
      w.fs (str "../.env") = .ok file →
      (∀ l ∈ rawLines file, lineMatches (str "VITE_GOOGLE_API_KEY") l = false) →
      main w = logFatal (str "Could not find VITE_GOOGLE_API_KEY in ../.env")) := by
  refine ⟨?_, ?_, ?_⟩
  · intro w path key file hopen hlen
    rw [loadEnvKey_ok hopen]
    show scanKey key (scanTokens file) = [] ↔ _
    unfold scanTokens
    constructor
    · intro hres
      by_cases hex : ∃ l ∈ rawLines file, lineMatches key l = true
      · right
        obtain ⟨pre, m, post, hsplit, hpre, hm⟩ := exists_first_match key _ hex
        have hb := bounds_before_match key _ hlen pre m post hsplit hpre
        have hml := hlen pre m post hsplit hpre
        rw [hsplit, scan_first_match key pre m post hb hml hm] at hres
        have hp : HasPrefix (trimLeft m) (key ++ [0x3D]) = true := by
          rw [← hasPrefix_trimSpace]
          exact hm
        obtain ⟨r, hr⟩ := List.isPrefixOf_iff_prefix.mp hp
        have hv := lineValue_of_trimLeft key m r (by simpa using hr.symm)
        refine ⟨pre, m, post, r, hsplit, hpre, hr.symm, ?_⟩
        rw [isSpaces_iff_trimRight, ← hv.2]
        exact hres
      · left
        intro l hl
        cases hlm : lineMatches key l with
        | false => rfl
        | true => exact absurd ⟨l, hl, hlm⟩ hex
    · rintro (hno | ⟨pre, m, post, r, hsplit, hpre, hm, hr⟩)
      · exact scan_no_match key _ hno
      · have hv := lineValue_of_trimLeft key m r (by simpa using hm)
        have hb := bounds_before_match key _ hlen pre m post hsplit hpre
        have hml := hlen pre m post hsplit hpre
        rw [hsplit, scan_first_match key pre m post hb hml hv.1, hv.2]
        exact (isSpaces_iff_trimRight r).mp hr
  · intro w file pre m post r hopen hsplit hpre hm hr
    have hv := lineValue_of_trimLeft (str "VITE_GOOGLE_API_KEY") m r
      (by simpa using hm)
    have hval : lineValue (str "VITE_GOOGLE_API_KEY") m = [] := by
      rw [hv.2]
      exact (isSpaces_iff_trimRight r).mp hr
    have hk : (loadEnvKey w (str "../.env") (str "VITE_GOOGLE_API_KEY")).2 = [] := by
      rw [loadEnvKey_ok hopen]
      show scanKey _ (scanTokens file) = []
      unfold scanTokens
      rw [hsplit]
      exact scan_empty_value _ pre m post hpre hv.1 hval
    rw [main_no_key w hk, loadEnvKey_ok hopen]
    rfl
  · intro w file hopen hno
    have hk : (loadEnvKey w (str "../.env") (str "VITE_GOOGLE_API_KEY")).2 = [] := by
      rw [loadEnvKey_ok hopen]
      exact scan_no_match _ _ hno
    rw [main_no_key w hk, loadEnvKey_ok hopen]
    rfl

/-- Inputs to which C9 (amended) applies: the file `K= ` / `K=v` gives the
empty string for key `K`; with `VITE_GOOGLE_API_KEY=` before
`VITE_GOOGLE_API_KEY=abc123` `main` ends as it does on a file without the
key. -/
theorem loadEnvKey_empty_iff_witness :
    (loadEnvKey (fileWorld (str "K= \nK=v\n")) (str ".env") (str "K")).2 = [] ∧
      main (fileWorld (str "VITE_GOOGLE_API_KEY=\nVITE_GOOGLE_API_KEY=abc123\n"))
        = logFatal (str "Could not find VITE_GOOGLE_API_KEY in ../.env") ∧
      main (fileWorld (str "OTHER=1\n"))
        = logFatal (str "Could not find VITE_GOOGLE_API_KEY in ../.env") := by
  have hlines : rawLines (str "K= \nK=v\n") = [str "K= ", str "K=v"] := by decide
  refine ⟨?_, ?_, ?_⟩
  · refine (loadEnvKey_empty_iff.1 (fileWorld (str "K= \nK=v\n")) (str ".env") (str "K")
      (str "K= \nK=v\n") rfl ?_).mpr ?_
    · intro pre m post h _
      have hm : m ∈ rawLines (str "K= \nK=v\n") := by
        rw [h]
        simp
      rw [hlines] at hm
      simp only [List.mem_cons, List.mem_singleton, List.not_mem_nil, or_false] at hm
      rcases hm with rfl | rfl <;> decide
    · exact Or.inr ⟨[], str "K= ", [str "K=v"], str " ", by decide, by decide, by decide,
        ⟨[0x20], by decide, by decide⟩⟩
  · exact loadEnvKey_empty_iff.2.1
      (fileWorld (str "VITE_GOOGLE_API_KEY=\nVITE_GOOGLE_API_KEY=abc123\n"))
      (str "VITE_GOOGLE_API_KEY=\nVITE_GOOGLE_API_KEY=abc123\n")
      [] (str "VITE_GOOGLE_API_KEY=") [str "VITE_GOOGLE_API_KEY=abc123"] []
      rfl (by decide) (by decide) (by decide) ⟨[], by decide, by decide⟩
  · exact loadEnvKey_empty_iff.2.2 (fileWorld (str "OTHER=1\n")) (str "OTHER=1\n")
      rfl (by decide)

end CheckModels
